import Mathlib

/-!
Shallow embedding of the `envconfig` Go package (src/unnamed/part_004:
`Read`, `read`, `setValue`, `split`, `getter.ReadValue`) and proofs about
the claims of its specification.

Modelling conventions:
* Go `func(string) (string, bool)` lookups become `String → Option String`.
* Go `reflect` types are embedded as the inductive `Ty`; runtime values as
  the inductive `Value`.  A Go named type's method set (the three
  unmarshaler interfaces and `EnvCollector`) is carried by `Caps`, attached
  to struct types — the only shape the claims exercise methods on.
  A custom unmarshaler invocation is modelled observably: on success it
  stores which decoder ran together with its input string; a type whose
  capability is declared failing returns its fixed error string.
  `EnvCollector.CollectEnv` is modelled abstractly by its declared outcome
  (`Caps.collectErr`) plus an observable `collected` flag, which is all the
  claims need of it.
* Machine integers: `strconv.ParseInt(value, 10, bits)` is embedded exactly
  (sign, decimal digits, `±2^(bits-1)` range check) over `Int`.
  Leaf parsers the claims never touch (float, duration, uint) are outside
  the embedded fragment; removing them only removes cases from `setValue`'s
  dispatch switch and changes no other behaviour.
* Errors are an inductive `Err`, one constructor per `fmt.Errorf` site of
  the source, carrying the data the format string interpolates (long
  literal message texts are not re-rendered; distinctness of errors is
  constructor distinctness).
* Mutation: Go mutates destination slots in place.  Every embedded
  operation therefore returns the slot's resulting value *paired with* the
  optional error, so that partial mutation before an error is preserved
  exactly as in the source (`setValue` on arrays mutates element by
  element; on maps it assigns a freshly built map only at the end).
* `reflect.VisibleFields` is modelled as the struct's own (depth-0) field
  list.  Promoted duplicates of embedded members re-process the same keys
  and are irrelevant to every claim, all of which concern how a single
  visited field entry is handled.
* `CanAddr` is `true` on every path reachable from `Read`/`ReadValue`
  (the holder is always a pointer), so the `CanAddr` guards of the source
  are embedded as taken.
-/

namespace Envconfig

/-- `type LookupEnv = func(string) (string, bool)` (part_004 line 14). -/
abbrev LookupEnv := String → Option String

/-- Which of the three unmarshal interfaces a decode invocation used. -/
inductive DecKind where
  | json
  | binary
  | text
deriving DecidableEq, Repr

/-- Method set of a (struct) type: the three unmarshaler interfaces and
`EnvCollector`.  `json = some r` means the type implements
`json.Unmarshaler` and an invocation returns `r` (`none` = success,
`some e` = the unmarshaler's own error `e`); likewise `binary`, `text`.
`collectorVal` / `collectorPtr`: the type implements `EnvCollector` with a
value / pointer receiver; `collectErr` is what `CollectEnv` returns. -/
structure Caps where
  json : Option (Option String) := none
  binary : Option (Option String) := none
  text : Option (Option String) := none
  collectorVal : Bool := false
  collectorPtr : Bool := false
  collectErr : Option String := none
deriving DecidableEq, Repr

/-- A field's struct tag: `env`, `envPrefix`, `envDefault`, `envRequired`.
`none` models `Tag.Lookup` reporting the tag absent; `Tag.Get` of an absent
tag is `""` (`Option.getD ""` below). -/
structure Tag where
  env : Option String := none
  envPrefix : Option String := none
  envDefault : Option String := none
  envRequired : Option String := none
deriving DecidableEq, Repr

/-- The tag-independent data of a `reflect.StructField`: name, package
path (`""` iff exported), anonymous (embedded) marker, and tag.  Note the
source's `read` never consults `anonymous`; it is carried so that claims
about embedded versus named fields are statable. -/
structure FieldInfo where
  name : String
  pkgPath : String := ""
  anonymous : Bool := false
  tag : Tag := {}
deriving DecidableEq, Repr

/-- The embedded fragment of Go types: the shapes the claims exercise.
`strct caps fields` is a struct type together with its method set. -/
inductive Ty where
  | str
  | bool
  | int (bits : Nat)
  | ptr (elem : Ty)
  | array (n : Nat) (elem : Ty)
  | slice (elem : Ty)
  | map (key val : Ty)
  | strct (caps : Caps) (fields : List (FieldInfo × Ty))

/-- Runtime values mirroring `Ty`.  `slice none` / `map none` are Go's nil
slice / nil map, distinct from `some []` (an allocated empty one).
`ptr none` is a nil pointer.  A struct value records the last successful
unmarshal invocation (`dec`), whether `CollectEnv` ran (`collected`), and
its field values. -/
inductive Value where
  | str (s : String)
  | bool (b : Bool)
  | int (i : Int)
  | ptr (v : Option Value)
  | array (vs : List Value)
  | slice (vs : Option (List Value))
  | map (entries : Option (List (Value × Value)))
  | strct (dec : Option (DecKind × String)) (collected : Bool) (fields : List Value)

mutual

/-- Structural equality of values (Go `==` / `reflect.DeepEqual` on the
embedded fragment; used for map-key identity in `SetMapIndex`). -/
def Value.beq : Value → Value → Bool
  | .str a, .str b => a = b
  | .bool a, .bool b => a = b
  | .int a, .int b => a = b
  | .ptr none, .ptr none => true
  | .ptr (some a), .ptr (some b) => Value.beq a b
  | .array a, .array b => beqList a b
  | .slice none, .slice none => true
  | .slice (some a), .slice (some b) => beqList a b
  | .map none, .map none => true
  | .map (some a), .map (some b) => beqPairs a b
  | .strct d c a, .strct d' c' b => d = d' && c = c' && beqList a b
  | _, _ => false
termination_by structural v _ => v

/-- elementwise `Value.beq` -/
def beqList : List Value → List Value → Bool
  | [], [] => true
  | a :: as, b :: bs => Value.beq a b && beqList as bs
  | _, _ => false
termination_by structural l _ => l

/-- pairwise `Value.beq` -/
def beqPairs : List (Value × Value) → List (Value × Value) → Bool
  | [], [] => true
  | (k, v) :: as, (k', v') :: bs => Value.beq k k' && Value.beq v v' && beqPairs as bs
  | _, _ => false
termination_by structural l _ => l

end

/-- `reflect.Kind.String()` for the embedded fragment. -/
def kindName : Ty → String
  | .str => "string"
  | .bool => "bool"
  | .int b => "int" ++ toString b
  | .ptr _ => "ptr"
  | .array _ _ => "array"
  | .slice _ => "slice"
  | .map _ _ => "map"
  | .strct _ _ => "struct"

/-- One constructor per error site of the source (`fmt.Errorf`), carrying
the interpolated data.  `illTyped` is model-internal: it marks a type/value
shape mismatch that well-typed states never reach. -/
inductive Err where
  /-- `Read`: "envconfig: nil holder" -/
  | nilHolder
  /-- `Read`: "envconfig.Read only accepts a struct, got %q" -/
  | notStruct (kind : String)
  /-- `read`: field %q implements EnvCollector but not for a pointer receiver -/
  | collectorValueReceiver (field : String)
  /-- `read`: %q CollectEnv failed: %w -/
  | collectFailed (field : String) (msg : String)
  /-- `read`: tag "env" can't be empty: %q -/
  | envTagEmpty (field : String)
  /-- `read`: both "env" and "envPrefix" does not make sense … -/
  | bothTags
  /-- `read`: tag "envPrefix" can't be empty: %q -/
  | prefixEmpty (field : String)
  /-- `read`: field %q does not have "env" tag -/
  | noEnvTag (field : String)
  /-- `read`: required field %q is empty -/
  | requiredMissing (key : String)
  /-- `read`: error decoding %q field: %w -/
  | decodeFailed (field : String) (msg : String)
  /-- `read`: field %q is a struct with "env" tag but does not implement … -/
  | structNoUnmarshal (field : String)
  /-- `read`: field %q failed to populate: %w -/
  | populateFailed (field : String) (err : Err)
  /-- an unmarshaler's own error, surfaced by `setValue` -/
  | unmarshalErr (msg : String)
  /-- `strconv.ParseBool`: invalid syntax -/
  | parseBoolSyntax (s : String)
  /-- `strconv.ParseInt`: invalid syntax -/
  | parseIntSyntax (s : String)
  /-- `strconv.ParseInt`: value out of range -/
  | parseIntRange (s : String)
  /-- `setValue`: array needs %d elements, got %d -/
  | arrayCount (need got : Nat)
  /-- `setValue`: invalid map value %s -/
  | invalidMapValue (src : String)
  /-- `setValue`: unsupported type %q … -/
  | unsupportedType (kind : String)
  /-- `getter.ReadValue`: %q not a pointer -/
  | notAPointer (kind : String)
  /-- model-internal: unreachable type/value mismatch -/
  | illTyped
deriving DecidableEq, Repr

/-- ASCII whitespace (the portion of Go's `unicode.IsSpace` the claims
exercise). -/
def isSpaceChar (c : Char) : Bool :=
  c = ' ' ∨ c = '\t' ∨ c = '\n' ∨ c = '\x0b' ∨ c = '\x0c' ∨ c = '\r'

/-- `strings.TrimSpace`: drop leading and trailing whitespace. -/
def trimSpace (s : String) : String :=
  .mk (((s.data.dropWhile isSpaceChar).reverse.dropWhile isSpaceChar).reverse)

/-- `strings.Split` on a single-character separator: `""` gives `[""]`,
otherwise the runs between occurrences of the separator. -/
def splitChar (sep : Char) : List Char → List (List Char)
  | [] => [[]]
  | c :: cs =>
    let rest := splitChar sep cs
    if c = sep then [] :: rest
    else
      match rest with
      | r :: rs => (c :: r) :: rs
      | [] => [[c]]

/-- `split` (part_004 lines 411-422): `""` gives nil; otherwise split on
commas and trim each piece. -/
def split (s : String) : List String :=
  if s = "" then []
  else (splitChar ',' s.data).map (fun cs => trimSpace (.mk cs))

/-- `strings.SplitN(s, "=", 2)`: at most two pieces, split at the first
`=`; a string with no `=` stays one piece. -/
def splitN2eq (s : String) : List String :=
  match splitChar '=' s.data with
  | [x] => [.mk x]
  | x :: rest => [.mk x, .mk (List.intercalate ['='] rest)]
  | [] => []

/-- `strconv.ParseBool`. -/
def parseBool (s : String) : Except Err Bool :=
  if s = "1" ∨ s = "t" ∨ s = "T" ∨ s = "TRUE" ∨ s = "true" ∨ s = "True" then
    .ok true
  else if s = "0" ∨ s = "f" ∨ s = "F" ∨ s = "FALSE" ∨ s = "false" ∨ s = "False" then
    .ok false
  else .error (.parseBoolSyntax s)

/-- Decimal digit run to `Nat`; `none` on empty input or a non-digit. -/
def digitsToNat : List Char → Option Nat
  | [] => none
  | cs => cs.foldl (fun acc c =>
      acc.bind fun n => if c.isDigit then some (n * 10 + (c.toNat - '0'.toNat)) else none)
      (some 0)

/-- `strconv.ParseInt(s, 10, bits)`: optional sign, decimal digits, range
check against `[-2^(bits-1), 2^(bits-1)-1]`. -/
def parseInt (s : String) (bits : Nat) : Except Err Int :=
  match s.data with
  | [] => .error (.parseIntSyntax s)
  | c :: rest =>
    let signDigits : Bool × List Char :=
      if c = '-' then (true, rest)
      else if c = '+' then (false, rest)
      else (false, c :: rest)
    match digitsToNat signDigits.2 with
    | none => .error (.parseIntSyntax s)
    | some n =>
      let v : Int := if signDigits.1 then -(n : Int) else (n : Int)
      if v < -(2 ^ (bits - 1) : Int) ∨ (2 ^ (bits - 1) : Int) - 1 < v then
        .error (.parseIntRange s)
      else .ok v

/-- The method set of a type (empty off structs: only named struct types
carry methods in the embedded fragment). -/
def tyCaps : Ty → Caps
  | .strct caps _ => caps
  | _ => {}

mutual

/-- Zero value of a type (`reflect.New(t).Elem()`). -/
def zero : Ty → Value
  | .str => .str ""
  | .bool => .bool false
  | .int _ => .int 0
  | .ptr _ => .ptr none
  | .array n t => .array (List.replicate n (zero t))
  | .slice _ => .slice none
  | .map _ _ => .map none
  | .strct _ fs => .strct none false (zeroFields fs)
termination_by structural t => t

/-- zero values of a struct's fields -/
def zeroFields : List (FieldInfo × Ty) → List Value
  | [] => []
  | f :: fs => zero f.2 :: zeroFields fs
termination_by structural l => l

end

/-- `SetMapIndex` on the assoc-list model of a Go map: overwrite the entry
with an equal key, else append. -/
def mapInsert (k v : Value) : List (Value × Value) → List (Value × Value)
  | [] => [(k, v)]
  | (k', v') :: rest => if Value.beq k' k then (k, v) :: rest else (k', v') :: mapInsert k v rest

/-- invoke one unmarshal method on a struct value (observable model:
success records the decoder kind and its input) -/
def runUnmarshal (k : DecKind) (r : Option String) (dec : Option (DecKind × String))
    (coll : Bool) (vs : List Value) (value : String) : Value × Option Err :=
  match r with
  | some e => (.strct dec coll vs, some (.unmarshalErr e))
  | none => (.strct (some (k, value)) coll vs, none)

/-- the array loop of `setValue` (part_004 lines 364-369), with the element
conversion abstracted as `conv`: overwrite each current element from the
corresponding piece, stopping at (and keeping the mutations before) the
first error -/
def setArrayElems (conv : Value → String → Value × Option Err) :
    List Value → List String → List Value × Option Err
  | [], _ => ([], none)
  | v :: vs', p :: ps =>
    let r := conv v p
    match r.2 with
    | some e => (r.1 :: vs', some e)
    | none =>
      let rest := setArrayElems conv vs' ps
      (r.1 :: rest.1, rest.2)
  | v :: vs', [] => (v :: vs', none)

/-- the slice loop of `setValue` (part_004 lines 372-379), with the element
conversion abstracted as `conv` and the fresh zero element as `z`: convert
each piece into a fresh element and append it, keeping the appends made
before an error -/
def appendSlice (conv : Value → String → Value × Option Err) (z : Value) :
    Option (List Value) → List String → Option (List Value) × Option Err
  | cur, [] => (cur, none)
  | cur, p :: ps =>
    let r := conv z p
    match r.2 with
    | some e => (cur, some e)
    | none => appendSlice conv z (some (cur.getD [] ++ [r.1])) ps

/-- the map loop of `setValue` (part_004 lines 386-402), with the key and
value conversions abstracted as `convK`/`convV` over fresh zeroes `zk`/`zv`:
split each piece at its first `=`, convert the key (re-trimmed) and the
value, and insert into the map under construction; `src` is the whole
source string (interpolated into the invalid-map-value error) -/
def setMapPairs (convK convV : Value → String → Value × Option Err) (zk zv : Value)
    (src : String) : List (Value × Value) → List String → List (Value × Value) × Option Err
  | mp, [] => (mp, none)
  | mp, p :: ps =>
    match splitN2eq p with
    | [k, v] =>
      let rk := convK zk (trimSpace k)
      match rk.2 with
      | some e => (mp, some e)
      | none =>
        let rv := convV zv v
        match rv.2 with
        | some e => (mp, some e)
        | none => setMapPairs convK convV zk zv src (mapInsert rk.1 rv.1 mp) ps
    | _ => (mp, some (.invalidMapValue src))

/-- `setValue` (part_004 lines 295-409): convert `value` into the slot of
type `t` currently holding `v`; result is the slot's new value paired with
the optional error (the slot's value on error reflects exactly the
mutation the source performed before failing). -/
def setValue (t : Ty) (v : Value) (value : String) : Value × Option Err :=
  match t, v with
  -- lines 296-301: pointer slots allocate then recurse into the pointee
  | .ptr te, .ptr pv =>
    let inner := pv.getD (zero te)
    let r := setValue te inner value
    (.ptr (some r.1), r.2)
  -- lines 303-313: unmarshaler dispatch, JSON first, then Binary, then Text
  | .strct caps fs, .strct dec coll vs =>
    match caps.json with
    | some r => (runUnmarshal .json r dec coll vs value)
    | none =>
      match caps.binary with
      | some r => (runUnmarshal .binary r dec coll vs value)
      | none =>
        match caps.text with
        | some r => (runUnmarshal .text r dec coll vs value)
        -- the kind switch has no struct case: `default` (line 404-405)
        | none => (.strct dec coll vs, some (.unsupportedType (kindName (.strct caps fs))))
  -- lines 329-358: primitive kinds
  | .str, _ => (.str value, none)
  | .bool, old =>
    match parseBool value with
    | .ok b => (.bool b, none)
    | .error e => (old, some e)
  | .int bits, old =>
    match parseInt value bits with
    | .ok i => (.int i, none)
    | .error e => (old, some e)
  -- lines 359-369: arrays, mutated element by element in place
  | .array n te, .array vs =>
    let arr := split value
    if arr.length < n then (.array vs, some (.arrayCount n arr.length))
    else
      let r := setArrayElems (setValue te) vs arr
      (.array r.1, r.2)
  -- lines 370-379: slices, each element built fresh then appended
  | .slice te, .slice cur =>
    let arr := split value
    let r := appendSlice (setValue te) (zero te) cur arr
    (.slice r.1, r.2)
  -- lines 380-403: maps, built into a fresh map assigned only at the end
  | .map kt vt, v =>
    let arr := split value
    if arr.length = 0 then (v, none)
    else
      match setMapPairs (setValue kt) (setValue vt) (zero kt) (zero vt) value [] arr with
      | (mp, none) => (.map (some mp), none)
      | (_, some e) => (v, some e)
  | _, v => (v, some .illTyped)
termination_by structural t

/-- mark a struct value as having had `CollectEnv` invoked on it -/
def markCollected : Value → Value
  | .strct dec _ vs => .strct dec true vs
  | v => v

/-- the leaf conversion step of `read` (part_004 lines 258-283): pick an
unmarshal method by successive overwrite (`fn` is assigned from Text, then
Binary, then JSON — lines 259-268), run it if any, else reject bare
structs (lines 276-278), else fall through to `setValue` (lines 281-283). -/
def convertLeaf (fi : FieldInfo) (ft : Ty) (fv : Value) (envVal : String) :
    Value × Option Err :=
  let caps := tyCaps ft
  let fn : Option (DecKind × Option String) := none
  let fn := match caps.text with | some r => some (DecKind.text, r) | none => fn
  let fn := match caps.binary with | some r => some (DecKind.binary, r) | none => fn
  let fn := match caps.json with | some r => some (DecKind.json, r) | none => fn
  match fn with
  | some (k, r) =>
    match fv, r with
    | .strct dec coll vs, some e => (.strct dec coll vs, some (.decodeFailed fi.name e))
    | .strct _ coll vs, none => (.strct (some (k, envVal)) coll vs, none)
    | _, _ => (fv, some .illTyped)
  | none =>
    match ft with
    | .strct _ _ => (fv, some (.structNoUnmarshal fi.name))
    | _ =>
      let r := setValue ft fv envVal
      match r.2 with
      | some e => (r.1, some (.populateFailed fi.name e))
      | none => (r.1, none)

/-- the leaf resolution step of `read` (part_004 lines 246-256): look the
effective key up; found values are used verbatim, a missing key falls back
to `envDefault` when present, errors when `envRequired` is `"true"` with no
default, and otherwise leaves the field untouched with no conversion. -/
def readLeaf (le : LookupEnv) (pfx : String) (fi : FieldInfo) (ft : Ty) (fv : Value) :
    Value × Option Err :=
  let hasEnv := fi.tag.env.isSome
  let env := fi.tag.env.getD ""
  -- line 242-244: non-struct fields (and structs with only a pfx already
  -- handled) must carry an `env` tag
  if ¬hasEnv then (fv, some (.noEnvTag fi.name))
  else
    match le (pfx ++ env) with
    | some envVal => convertLeaf fi ft fv envVal
    | none =>
      let hasDefault := fi.tag.envDefault.isSome
      if ¬hasDefault ∧ fi.tag.envRequired.getD "" = "true" then
        (fv, some (.requiredMissing (pfx ++ env)))
      else if ¬hasDefault then (fv, none)
      else convertLeaf fi ft fv (fi.tag.envDefault.getD "")

/-- What examining one (dereferenced) field decides before any struct
recursion: a finished result, or the instruction to recurse into the
nested struct's fields — flat, or under an extended effective prefix.
(`readFieldBody` performs the recursion itself.) -/
inductive FieldAction where
  | finish (r : Value × Option Err)
  | flat
  | prefixed (realPref : String)

/-- the per-field logic of `read`'s loop (part_004 lines 190-283) minus
the recursion into nested structs: `ft`/`fv` are the field's (dereferenced)
type and value.  Covers the `EnvCollector` checks, the skip sentinel, the
tag validity checks, the leaf path, and — for struct-typed fields — the
decision to recurse flat or with an extended prefix. -/
def fieldAction (le : LookupEnv) (pfx : String) (fi : FieldInfo) (ft : Ty) (fv : Value) :
    FieldAction :=
  let caps := tyCaps ft
  -- lines 190-202 (CanAddr always holds here): EnvCollector dispatch
  if caps.collectorVal then .finish (fv, some (.collectorValueReceiver fi.name))
  else if caps.collectorPtr then
    let fv' := markCollected fv
    match caps.collectErr with
    | some e => .finish (fv', some (.collectFailed fi.name e))
    | none => .finish (fv', none)
  else
    -- lines 204-210: the skip sentinel and the empty-`env` check
    let hasEnv := fi.tag.env.isSome
    let env := fi.tag.env.getD ""
    if env = "-" then .finish (fv, none)
    else if hasEnv ∧ env = "" then .finish (fv, some (.envTagEmpty fi.name))
    else
      -- lines 212-218: both-tags and empty-prefix checks
      let hasPrefix := fi.tag.envPrefix.isSome
      let pref := fi.tag.envPrefix.getD ""
      if hasEnv ∧ hasPrefix then .finish (fv, some .bothTags)
      else if hasPrefix ∧ pref = "" then .finish (fv, some (.prefixEmpty fi.name))
      else
        -- lines 220-240: struct-typed fields recurse (flat, or prefixed)
        match ft, fv with
        | .strct _ _, .strct _ _ _ =>
          if ¬hasEnv ∧ ¬hasPrefix then .flat
          else if hasPrefix then
            let realPref := pref ++ "_"
            .prefixed (if pfx ≠ "" then pfx ++ realPref else realPref)
          else .finish (readLeaf le pfx fi ft fv)
        | _, _ => .finish (readLeaf le pfx fi ft fv)

mutual

/-- processing of one visited field of `read`'s loop (part_004 lines
190-283), minus the pointer handling: run `fieldAction` and perform the
struct recursion it requests, if any. -/
def readFieldBody (le : LookupEnv) (pfx : String) (fi : FieldInfo) (ft : Ty) (fv : Value) :
    Value × Option Err :=
  match ft, fv, fieldAction le pfx fi ft fv with
  | .strct _ nfs, .strct dec coll vs, .flat =>
    let r := readFields le pfx nfs vs
    (.strct dec coll r.1, r.2)
  | .strct _ nfs, .strct dec coll vs, .prefixed realPref =>
    let r := readFields le realPref nfs vs
    (.strct dec coll r.1, r.2)
  | _, _, a =>
    match a with
    | .finish r => r
    | _ => (fv, some .illTyped)
termination_by structural ft

/-- `read` (part_004 lines 170-287) over a struct's field list: process
the fields in order, stopping at the first error (the already-performed
mutations are kept, as in the source).  Each step inlines the per-field
pointer allocation/dereference (lines 176-188); `readField` below is the
same step as a standalone definition. -/
def readFields (le : LookupEnv) (pfx : String) :
    List (FieldInfo × Ty) → List Value → List Value × Option Err
  | [], vs => (vs, none)
  | _ :: _, [] => ([], none)
  | (fi, t) :: fs, v :: vs =>
    let r :=
      -- lines 176-178: unexported fields are skipped untouched
      if fi.pkgPath ≠ "" then (v, none)
      else
        match t, v with
        -- lines 181-188: a nil pointer field is allocated, then dereferenced,
        -- before any directive is examined
        | .ptr te, .ptr pv =>
          let rb := readFieldBody le pfx fi te (pv.getD (zero te))
          (.ptr (some rb.1), rb.2)
        | t', v' => readFieldBody le pfx fi t' v'
    match r.2 with
    | some e => (r.1 :: vs, some e)
    | none =>
      let rest := readFields le pfx fs vs
      (r.1 :: rest.1, rest.2)
termination_by structural fields _ => fields

end

/-- one iteration of `read`'s field loop (part_004 lines 175-284): exactly
the per-field step of `readFields`, as a standalone definition.  Unexported
fields are skipped untouched; a pointer-typed field is allocated if nil and
dereferenced before anything else is examined. -/
def readField (le : LookupEnv) (pfx : String) (fi : FieldInfo) (t : Ty) (v : Value) :
    Value × Option Err :=
  -- lines 176-178
  if fi.pkgPath ≠ "" then (v, none)
  else
    match t, v with
    -- lines 181-188
    | .ptr te, .ptr pv =>
      let r := readFieldBody le pfx fi te (pv.getD (zero te))
      (.ptr (some r.1), r.2)
    | t', v' => readFieldBody le pfx fi t' v'

/-- `Read` (part_004 lines 87-108).  The holder argument `*T` is modelled
as `none` for a nil pointer and otherwise as the pointee's type and
current value (the generic signature makes the non-pointer branch of the
source an unreachable panic).  A custom lookup is the model's `le`; the
source defaults it to `os.LookupEnv` when none is supplied. -/
def Read (le : LookupEnv) (holder : Option (Ty × Value)) :
    Option (Ty × Value) × Option Err :=
  match holder with
  | none => (none, some .nilHolder)
  | some (t, v) =>
    match t, v with
    | .strct _ fs, .strct dec coll vs =>
      let r := readFields le "" fs vs
      (some (t, .strct dec coll r.1), r.2)
    | .strct _ _, _ => (some (t, v), some .illTyped)
    | _, _ => (some (t, v), some (.notStruct (kindName t)))

/-- is the type a pointer kind? -/
def isPtrTy : Ty → Bool
  | .ptr _ => true
  | _ => false

/-- `getter.ReadValue` (part_004 lines 134-146): the collector accessor's
single-value parse.  Rejects non-pointer targets, silently no-ops on a
missing key, and otherwise converts via `setValue`. -/
def ReadValue (le : LookupEnv) (key : String) (t : Ty) (v : Value) :
    Value × Option Err :=
  if ¬ isPtrTy t then (v, some (.notAPointer (kindName t)))
  else
    match le key with
    | none => (v, none)
    | some val => setValue t v val

/-! Auxiliary notions used only to state the claims. -/

/-- a leaf type: neither a pointer (dereferenced by the walker first) nor a
struct (which has its own branches in `read`) -/
def isLeafTy : Ty → Bool
  | .ptr _ => false
  | .strct _ _ => false
  | _ => true

/-- is the type a struct kind? -/
def isStructTy : Ty → Bool
  | .strct _ _ => true
  | _ => false

/-- the type the walker examines after its one-level pointer dereference -/
def derefTy : Ty → Ty
  | .ptr te => te
  | t => t

/-- how many of the three unmarshal interfaces a method set implements -/
def decCount (caps : Caps) : Nat :=
  (if caps.json.isSome then 1 else 0) + (if caps.binary.isSome then 1 else 0) +
    (if caps.text.isSome then 1 else 0)

/-- the spec's fixed decode priority: JSON-style decode first, then
binary-blob decode, then text decode — the first implemented one -/
def priorityDecoder (caps : Caps) : Option (DecKind × Option String) :=
  match caps.json with
  | some r => some (.json, r)
  | none =>
    match caps.binary with
    | some r => some (.binary, r)
    | none =>
      match caps.text with
      | some r => some (.text, r)
      | none => none

/-! Helper lemmas. -/

/-- `splitChar` never returns the empty list. -/
theorem splitChar_ne_nil (sep : Char) (cs : List Char) : splitChar sep cs ≠ [] := by
  cases cs with
  | nil => simp [splitChar]
  | cons c cs' =>
    simp only [splitChar]
    split
    · simp
    · split <;> simp

/-- `split` of a non-empty string is non-empty (the Go `split` returns nil
only for `""`). -/
theorem split_ne_nil (s : String) (hs : s ≠ "") : split s ≠ [] := by
  simp only [split, if_neg hs, ne_eq, List.map_eq_nil_iff]
  exact splitChar_ne_nil ',' s.data

/-- One step of `readFields` is exactly `readField` followed by the
error-or-continue branch of the loop. -/
theorem readFields_cons (le : LookupEnv) (pfx : String) (fi : FieldInfo) (t : Ty)
    (fs : List (FieldInfo × Ty)) (v : Value) (vs : List Value) :
    readFields le pfx ((fi, t) :: fs) (v :: vs) =
      (match (readField le pfx fi t v).2 with
       | some e => ((readField le pfx fi t v).1 :: vs, some e)
       | none =>
         ((readField le pfx fi t v).1 :: (readFields le pfx fs vs).1,
           (readFields le pfx fs vs).2)) := by
  by_cases hp : fi.pkgPath ≠ "" <;> cases t <;> cases v <;>
    simp only [readFields, readField, if_pos hp, if_neg hp]

/-- Off struct types the method set is empty. -/
theorem tyCaps_of_leaf (t : Ty) (h : isLeafTy t = true) : tyCaps t = {} := by
  cases t <;> simp_all [tyCaps, isLeafTy]

/-- On a leaf type `convertLeaf` is `setValue` with the conversion error
wrapped in the field's name (part_004 lines 281-283). -/
theorem convertLeaf_leaf (fi : FieldInfo) (t : Ty) (fv : Value) (s : String)
    (hleaf : isLeafTy t = true) :
    convertLeaf fi t fv s =
      ((setValue t fv s).1, (setValue t fv s).2.map (Err.populateFailed fi.name)) := by
  rcases hsv : setValue t fv s with ⟨v', e⟩
  cases t <;>
    simp only [convertLeaf, tyCaps, isLeafTy, hsv] <;>
    first
    | (cases e <;> rfl)
    | simp_all [isLeafTy]

/-- `readLeaf` laid out along the source's value-resolution precedence
(part_004 lines 246-256). -/
theorem readLeaf_eq (le : LookupEnv) (pfx : String) (fi : FieldInfo) (ft : Ty)
    (fv : Value) (k : String) (henv : fi.tag.env = some k) :
    readLeaf le pfx fi ft fv =
      (match le (pfx ++ k) with
       | some s => convertLeaf fi ft fv s
       | none =>
         match fi.tag.envDefault with
         | some d => convertLeaf fi ft fv d
         | none =>
           if fi.tag.envRequired.getD "" = "true" then
             (fv, some (.requiredMissing (pfx ++ k)))
           else (fv, none)) := by
  cases hle : le (pfx ++ k) <;> cases hd : fi.tag.envDefault <;>
    simp_all [readLeaf]

/-- A field whose examination finishes without struct recursion produces
exactly the finished result. -/
theorem readFieldBody_finish (le : LookupEnv) (pfx : String) (fi : FieldInfo)
    (ft : Ty) (fv : Value) (r : Value × Option Err)
    (h : fieldAction le pfx fi ft fv = .finish r) :
    readFieldBody le pfx fi ft fv = r := by
  unfold readFieldBody
  split
  · simp_all
  · simp_all
  · rw [h]

/-- On a leaf type with a plain non-skip `env` key the examination decides
the leaf path. -/
theorem fieldAction_leaf (le : LookupEnv) (pfx : String) (fi : FieldInfo) (t : Ty)
    (v : Value) (hleaf : isLeafTy t = true)
    (k : String) (henv : fi.tag.env = some k) (hdash : k ≠ "-") (hemp : k ≠ "")
    (hpre : fi.tag.envPrefix = none) :
    fieldAction le pfx fi t v = .finish (readLeaf le pfx fi t v) := by
  cases t <;>
    first
    | (unfold fieldAction
       simp [tyCaps, henv, hpre, hdash, hemp]
       done)
    | simp_all [isLeafTy]

/-- On an exported leaf field with a plain non-skip `env` key the walker
step is exactly `readLeaf` (the collector, skip, tag-validity and struct
branches all pass through). -/
theorem readField_leaf (le : LookupEnv) (pfx : String) (fi : FieldInfo) (t : Ty)
    (v : Value) (hexp : fi.pkgPath = "") (hleaf : isLeafTy t = true)
    (k : String) (henv : fi.tag.env = some k) (hdash : k ≠ "-") (hemp : k ≠ "")
    (hpre : fi.tag.envPrefix = none) :
    readField le pfx fi t v = readLeaf le pfx fi t v := by
  have hx : ¬ fi.pkgPath ≠ "" := by simp [hexp]
  have hb := readFieldBody_finish le pfx fi t v (readLeaf le pfx fi t v)
    (fieldAction_leaf le pfx fi t v hleaf k henv hdash hemp hpre)
  cases t <;>
    first
    | (simp only [readField, if_neg hx]; exact hb)
    | simp_all [isLeafTy]

/-- Under both `env` (non-skip) and `envPrefix` directives, and without a
successfully delegating pointer-receiver collector on the examined type,
the field's examination finishes with some error. -/
theorem fieldAction_both_tags (le : LookupEnv) (pfx : String) (fi : FieldInfo)
    (ft : Ty) (fv : Value) (k p : String)
    (henv : fi.tag.env = some k) (hdash : k ≠ "-") (hpre : fi.tag.envPrefix = some p)
    (hc : ¬((tyCaps ft).collectorVal = false ∧ (tyCaps ft).collectorPtr = true ∧
      (tyCaps ft).collectErr = none)) :
    ∃ v' e, fieldAction le pfx fi ft fv = .finish (v', some e) := by
  unfold fieldAction
  by_cases h1 : (tyCaps ft).collectorVal
  · exact ⟨fv, .collectorValueReceiver fi.name, by simp [h1]⟩
  · by_cases h2 : (tyCaps ft).collectorPtr
    · rcases hce : (tyCaps ft).collectErr with _ | e
      · exact absurd ⟨by simpa using h1, h2, hce⟩ hc
      · exact ⟨markCollected fv, .collectFailed fi.name e, by simp [h1, h2, hce]⟩
    · by_cases h3 : k = ""
      · exact ⟨fv, .envTagEmpty fi.name, by simp [h1, h2, henv, hdash, h3]⟩
      · exact ⟨fv, .bothTags, by simp [h1, h2, henv, hpre, hdash, h3]⟩

/-! Theorems for the claims. -/

/-- C1: the leaf value-resolution precedence — a found value (even the
empty string) is converted verbatim by `setValue`, suppressing both the
default and the required-error paths; a missing key falls back to the
`envDefault` literal when one is declared; missing with no default and
`envRequired:"true"` yields the required-field error (and, per the second
conjunct, aborts the field loop with the remaining fields untouched);
missing with neither leaves the field at its previous (zero) value with no
conversion and no error. -/
theorem c1_leaf_precedence (le : LookupEnv) (pfx : String) (fi : FieldInfo)
    (t : Ty) (v : Value) (k : String)
    (hexp : fi.pkgPath = "") (hleaf : isLeafTy t = true)
    (henv : fi.tag.env = some k) (hdash : k ≠ "-") (hemp : k ≠ "")
    (hpre : fi.tag.envPrefix = none) :
    readField le pfx fi t v =
      (match le (pfx ++ k) with
       | some s =>
         ((setValue t v s).1, (setValue t v s).2.map (Err.populateFailed fi.name))
       | none =>
         match fi.tag.envDefault with
         | some d =>
           ((setValue t v d).1, (setValue t v d).2.map (Err.populateFailed fi.name))
         | none =>
           if fi.tag.envRequired.getD "" = "true" then
             (v, some (.requiredMissing (pfx ++ k)))
           else (v, none)) ∧
    (∀ fs vs, le (pfx ++ k) = none → fi.tag.envDefault = none →
      fi.tag.envRequired.getD "" = "true" →
      readFields le pfx ((fi, t) :: fs) (v :: vs) =
        (v :: vs, some (.requiredMissing (pfx ++ k)))) := by
  have h1 : readField le pfx fi t v = readLeaf le pfx fi t v :=
    readField_leaf le pfx fi t v hexp hleaf k henv hdash hemp hpre
  have h2 := readLeaf_eq le pfx fi t v k henv
  have hcl : ∀ s, convertLeaf fi t v s =
      ((setValue t v s).1, (setValue t v s).2.map (Err.populateFailed fi.name)) :=
    fun s => convertLeaf_leaf fi t v s hleaf
  constructor
  · rw [h1, h2]
    cases le (pfx ++ k) <;> cases fi.tag.envDefault <;> simp [hcl]
  · intro fs vs hle hd hreq
    rw [readFields_cons, h1, h2, hle, hd, if_pos hreq]

/-- C1 witness: a `Port int64` field tagged `env:"PORT" envDefault:"8080"`
against an empty source converts the default to 8080. -/
theorem c1_leaf_precedence_witness :
    readField (fun _ => none) ""
      {name := "Port", tag := {env := some "PORT", envDefault := some "8080"}}
      (.int 64) (.int 0) = (.int 8080, none) := by
  have h := (c1_leaf_precedence (fun _ => none) ""
    {name := "Port", tag := {env := some "PORT", envDefault := some "8080"}}
    (.int 64) (.int 0) "PORT" rfl rfl rfl (by decide) (by decide) rfl).1
  exact h.trans (by rfl)

/-- C2 counterexample: a non-embedded (named, `anonymous := false`) struct
field with neither `env` nor `envPrefix` is not a declaration error —
`Read` recurses into it with the parent's unmodified prefix and populates
its leaf, returning no error. -/
theorem c2_counterexample :
    Read (fun key => if key = "HOST" then some "localhost" else none)
      (some (.strct {} [({name := "Sub"},
          .strct {} [({name := "Host", tag := {env := some "HOST"}}, .str)])],
        .strct none false [.strct none false [.str ""]])) =
      (some (.strct {} [({name := "Sub"},
          .strct {} [({name := "Host", tag := {env := some "HOST"}}, .str)])],
        .strct none false [.strct none false [.str "localhost"]]), none) := by
  rfl

/-- C2 (amended): an exported struct-typed field carrying neither `env`
nor `envPrefix` whose type does not implement `EnvCollector` is flattened
whether or not it is embedded: populate recurses into its fields with the
parent's unmodified accumulated prefix and raises no error for the field
itself. -/
theorem c2_untagged_struct_flattened (le : LookupEnv) (pfx : String) (fi : FieldInfo)
    (caps : Caps) (fs : List (FieldInfo × Ty)) (dec : Option (DecKind × String))
    (coll : Bool) (vs : List Value)
    (hexp : fi.pkgPath = "") (henv : fi.tag.env = none) (hpre : fi.tag.envPrefix = none)
    (hcv : caps.collectorVal = false) (hcp : caps.collectorPtr = false) :
    readField le pfx fi (.strct caps fs) (.strct dec coll vs) =
      (.strct dec coll (readFields le pfx fs vs).1, (readFields le pfx fs vs).2) := by
  have hx : ¬ fi.pkgPath ≠ "" := by simp [hexp]
  have ha : fieldAction le pfx fi (.strct caps fs) (.strct dec coll vs) = .flat := by
    unfold fieldAction
    simp [tyCaps, henv, hpre, hcv, hcp]
  simp only [readField, if_neg hx]
  unfold readFieldBody
  rw [ha]

/-- C2 witness: the flattened recursion resolves the leaf under the
parent's unmodified prefix (`P_HOST`). -/
theorem c2_untagged_struct_flattened_witness :
    readField (fun key => if key = "P_HOST" then some "h" else none) "P_"
      {name := "Sub"} (.strct {} [({name := "Host", tag := {env := some "HOST"}}, .str)])
      (.strct none false [.str ""]) =
      (.strct none false [.str "h"], none) := by
  have h := c2_untagged_struct_flattened
    (fun key => if key = "P_HOST" then some "h" else none) "P_"
    {name := "Sub"} {} [({name := "Host", tag := {env := some "HOST"}}, .str)]
    none false [.str ""] rfl rfl rfl rfl rfl
  exact h.trans (by rfl)

/-- C3: when a slot's type implements more than one unmarshal interface,
exactly one decoder runs — JSON-style decode first, then binary, then text
— and the conversion result is exactly that single highest-priority
decoder's result, both in `setValue` (which checks JSON, binary, text in
order) and in the walker's leaf conversion `convertLeaf` (which builds its
function by overwriting text, then binary, then JSON, and wraps a decode
failure with the field's name). -/
theorem c3_decoder_priority (caps : Caps) (fs : List (FieldInfo × Ty)) (fi : FieldInfo)
    (dec : Option (DecKind × String)) (coll : Bool) (vs : List Value) (s : String)
    (hmulti : 2 ≤ decCount caps) :
    ∃ k r, priorityDecoder caps = some (k, r) ∧
      setValue (.strct caps fs) (.strct dec coll vs) s =
        (match r with
         | some e => (.strct dec coll vs, some (.unmarshalErr e))
         | none => (.strct (some (k, s)) coll vs, none)) ∧
      convertLeaf fi (.strct caps fs) (.strct dec coll vs) s =
        (match r with
         | some e => (.strct dec coll vs, some (.decodeFailed fi.name e))
         | none => (.strct (some (k, s)) coll vs, none)) := by
  rcases caps with ⟨j, b, t, cv, cp, ce⟩
  cases j with
  | some rj =>
    cases b <;> cases t <;>
      exact ⟨.json, rj, rfl, by cases rj <;> rfl, by cases rj <;> rfl⟩
  | none =>
    cases b with
    | some rb =>
      cases t <;>
        exact ⟨.binary, rb, rfl, by cases rb <;> rfl, by cases rb <;> rfl⟩
    | none =>
      cases t with
      | some rt =>
        exact ⟨.text, rt, rfl, by cases rt <;> rfl, by cases rt <;> rfl⟩
      | none => simp [decCount] at hmulti

/-- C3 witness: a type implementing JSON and binary (failing) decode uses
the JSON decoder on both paths. -/
theorem c3_decoder_priority_witness :
    setValue (.strct {json := some none, binary := some (some "boom")} [])
      (.strct none false []) "x" = (.strct (some (.json, "x")) false [], none) ∧
    convertLeaf {name := "F"} (.strct {json := some none, binary := some (some "boom")} [])
      (.strct none false []) "x" = (.strct (some (.json, "x")) false [], none) := by
  obtain ⟨k, r, hp, hs, hc⟩ := c3_decoder_priority
    {json := some none, binary := some (some "boom")} [] {name := "F"}
    none false [] "x" (by decide)
  have heq : (some (DecKind.json, (none : Option String)) :
      Option (DecKind × Option String)) = some (k, r) :=
    (show priorityDecoder {json := some none, binary := some (some "boom")} =
        some (DecKind.json, none) from rfl).symm.trans hp
  injection heq with heq2
  have hk : DecKind.json = k := congrArg Prod.fst heq2
  have hr : (none : Option String) = r := congrArg Prod.snd heq2
  subst hk
  subst hr
  exact ⟨hs, hc⟩

/-- C4 — the code's behaviour at the failing input: a nil `*int64` field
tagged `env:"-"` does not keep its stored value.  `Read` allocates it to a
non-nil pointer at a zero pointee before the skip directive is examined,
although no lookup, conversion or error occurs. -/
theorem c4_skip_tagged_pointer_mutated :
    Read (fun _ => none)
      (some (.strct {} [({name := "NilPtrIgnored", tag := {env := some "-"}},
          .ptr (.int 64))],
        .strct none false [.ptr none])) =
      (some (.strct {} [({name := "NilPtrIgnored", tag := {env := some "-"}},
          .ptr (.int 64))],
        .strct none false [.ptr (some (.int 0))]), none) ∧
    Value.ptr (some (.int 0)) ≠ Value.ptr none :=
  ⟨rfl, by simp⟩

/-- C5 counterexample: a field declaring both `env:"-"` and
`envPrefix:"X"` is silently skipped — populate returns no error, so the
both-directives rule does not fire for a skip-tagged field. -/
theorem c5_counterexample :
    (Read (fun _ => none)
      (some (.strct {}
          [({name := "F", tag := {env := some "-", envPrefix := some "X"}}, .str)],
        .strct none false [.str ""]))).2 = none := rfl

/-- C5 (amended): a field declaring both a non-skip `env` key and an
`envPrefix` makes populate return an error when visited, for every field
shape, unless the skip sentinel or a successfully delegating
pointer-receiver collector intervenes (both are checked before the tag
validation). -/
theorem c5_both_tags_error (le : LookupEnv) (pfx : String) (fi : FieldInfo)
    (t : Ty) (v : Value) (k p : String)
    (hexp : fi.pkgPath = "") (henv : fi.tag.env = some k) (hdash : k ≠ "-")
    (hpre : fi.tag.envPrefix = some p)
    (hcoll : ¬((tyCaps (derefTy t)).collectorVal = false ∧
      (tyCaps (derefTy t)).collectorPtr = true ∧
      (tyCaps (derefTy t)).collectErr = none)) :
    (readField le pfx fi t v).2.isSome = true := by
  have haux : ∀ (ft : Ty) (fv : Value),
      ¬((tyCaps ft).collectorVal = false ∧ (tyCaps ft).collectorPtr = true ∧
        (tyCaps ft).collectErr = none) →
      (readFieldBody le pfx fi ft fv).2.isSome = true := by
    intro ft fv hc
    obtain ⟨v', e, ha⟩ := fieldAction_both_tags le pfx fi ft fv k p henv hdash hpre hc
    rw [readFieldBody_finish le pfx fi ft fv _ ha]
    rfl
  have hx : ¬ fi.pkgPath ≠ "" := by simp [hexp]
  cases t <;> cases v <;> simp only [readField, if_neg hx] <;>
    first
    | exact haux _ _ (by simpa [derefTy] using hcoll)
    | exact haux _ _ (by simp [tyCaps])

/-- C5 witness: a plain string field with `env:"A" envPrefix:"B"` errors. -/
theorem c5_both_tags_error_witness :
    (readField (fun _ => none) ""
      {name := "F", tag := {env := some "A", envPrefix := some "B"}}
      .str (.str "")).2.isSome = true :=
  c5_both_tags_error (fun _ => none) ""
    {name := "F", tag := {env := some "A", envPrefix := some "B"}}
    .str (.str "") "A" "B" rfl rfl (by decide) rfl (by simp [tyCaps, derefTy])

/-- C6: converting `",,,,"` into a slice-of-string destination yields
exactly five empty-string elements; converting `""` into the same (nil)
destination leaves it nil (unset), and a nil slice is a different state
from an allocated empty one. -/
theorem c6_comma_split_slice :
    setValue (.slice .str) (.slice none) ",,,," =
      (.slice (some [.str "", .str "", .str "", .str "", .str ""]), none) ∧
    setValue (.slice .str) (.slice none) "" = (.slice none, none) ∧
    Value.slice none ≠ Value.slice (some []) := by
  refine ⟨rfl, rfl, by simp⟩

/-- C7: `Read` rejects a nil holder with the dedicated nil-holder error and
a pointer to a non-struct with the only-accepts-a-struct error; the two
errors are distinct and in both cases the holder's value is returned
untouched (no field is walked). -/
theorem c7_entry_contract (le : LookupEnv) (t : Ty) (v : Value)
    (hns : isStructTy t = false) :
    Read le none = (none, some Err.nilHolder) ∧
    Read le (some (t, v)) = (some (t, v), some (Err.notStruct (kindName t))) ∧
    Err.notStruct (kindName t) ≠ Err.nilHolder := by
  refine ⟨rfl, ?_, by simp⟩
  cases t <;> simp_all [Read, isStructTy]

/-- C7 witness: at a concrete non-struct pointee (`*int64`). -/
theorem c7_entry_contract_witness :
    Read (fun _ => none) none = (none, some Err.nilHolder) ∧
    Read (fun _ => none) (some (.int 64, .int 0)) =
      (some (.int 64, .int 0), some (Err.notStruct "int64")) ∧
    Err.notStruct "int64" ≠ Err.nilHolder := by
  have h := c7_entry_contract (fun _ => none) (.int 64) (.int 0) rfl
  simpa [kindName] using h

/-- C8: `getter.ReadValue` errors on a non-pointer target; on a pointer
target a missing key is a silent no-op leaving the slot untouched, and a
found value is converted into the slot by `setValue`, whose error (if any)
is returned as is. -/
theorem c8_read_value (le : LookupEnv) (key : String) (t : Ty) (v : Value) :
    (isPtrTy t = false → ReadValue le key t v = (v, some (Err.notAPointer (kindName t)))) ∧
    (isPtrTy t = true → le key = none → ReadValue le key t v = (v, none)) ∧
    (∀ s, isPtrTy t = true → le key = some s → ReadValue le key t v = setValue t v s) := by
  refine ⟨fun h => ?_, fun h hk => ?_, fun s h hk => ?_⟩ <;>
    simp_all [ReadValue]

/-- C8 witness: a found key converted into a `*string` slot, a missing key
left untouched, and a non-pointer slot rejected. -/
theorem c8_read_value_witness :
    ReadValue (fun _ => some "x") "K" (.ptr .str) (.ptr none) =
      (.ptr (some (.str "x")), none) ∧
    ReadValue (fun _ => none) "K" (.ptr .str) (.ptr none) = (.ptr none, none) ∧
    ReadValue (fun _ => some "x") "K" .str (.str "") =
      (.str "", some (Err.notAPointer "string")) := by
  refine ⟨?_, ?_, ?_⟩
  · exact ((c8_read_value (fun _ => some "x") "K" (.ptr .str) (.ptr none)).2.2 "x"
      rfl rfl).trans (by rfl)
  · exact (c8_read_value (fun _ => none) "K" (.ptr .str) (.ptr none)).2.1 rfl rfl
  · exact (c8_read_value (fun _ => some "x") "K" .str (.str "")).1 rfl

/-- C9: an exported pointer-typed field visited by the walker always ends
up non-nil: the nil pointer is allocated before any directive is examined,
so the claim holds for every lookup source, every prefix and every tag set
(skip-tagged and not-found fields included). -/
theorem c9_pointer_allocated (le : LookupEnv) (pfx : String) (fi : FieldInfo)
    (te : Ty) (pv : Option Value) (hexp : fi.pkgPath = "") :
    ∃ w, (readField le pfx fi (.ptr te) (.ptr pv)).1 = .ptr (some w) := by
  refine ⟨(readFieldBody le pfx fi te (pv.getD (zero te))).1, ?_⟩
  simp [readField, hexp]

/-- C9 witness: a skip-tagged nil `*int64` field is still allocated. -/
theorem c9_pointer_allocated_witness :
    ∃ w, (readField (fun _ => none) "" {name := "P", tag := {env := some "-"}}
      (.ptr (.int 64)) (.ptr none)).1 = .ptr (some w) :=
  c9_pointer_allocated (fun _ => none) "" {name := "P", tag := {env := some "-"}}
    (.int 64) none rfl

/-- C10: map conversion is atomic in its destination: whenever `setValue`
on a map slot returns an error the slot's value is unchanged, and on
success (with a non-empty source) the result is exactly the freshly built
map — independent of the slot's previous entries. -/
theorem c10_map_atomic (kt vt : Ty) (v : Value) (s : String) :
    ((setValue (.map kt vt) v s).2.isSome = true → (setValue (.map kt vt) v s).1 = v) ∧
    (s ≠ "" → (setValue (.map kt vt) v s).2 = none →
      (setValue (.map kt vt) v s).1 =
        .map (some (setMapPairs (setValue kt) (setValue vt) (zero kt) (zero vt) s []
          (split s)).1)) := by
  constructor
  · intro herr
    simp only [setValue] at herr ⊢
    split at herr
    · simp at herr
    · rcases hmp : setMapPairs (setValue kt) (setValue vt) (zero kt) (zero vt) s []
        (split s) with ⟨mp, e⟩
      cases e <;> simp_all
  · intro hs hok
    simp only [setValue] at hok ⊢
    split at hok
    · exact absurd (List.length_eq_zero.mp (by assumption)) (split_ne_nil s hs)
    · rcases hmp : setMapPairs (setValue kt) (setValue vt) (zero kt) (zero vt) s []
        (split s) with ⟨mp, e⟩
      cases e <;> simp_all

/-- C10 witness: a piece with no `=` fails and leaves the one-entry map
slot unchanged; a good source replaces the slot with the freshly built
map. -/
theorem c10_map_atomic_witness :
    (setValue (.map .str .str) (.map (some [(.str "a", .str "b")])) "x").1 =
      .map (some [(.str "a", .str "b")]) ∧
    (setValue (.map .str .str) (.map (some [(.str "a", .str "b")])) "k=v").1 =
      .map (some (setMapPairs (setValue .str) (setValue .str) (zero .str) (zero .str)
        "k=v" [] (split "k=v")).1) := by
  constructor
  · exact (c10_map_atomic .str .str (.map (some [(.str "a", .str "b")])) "x").1 rfl
  · exact (c10_map_atomic .str .str (.map (some [(.str "a", .str "b")])) "k=v").2
      (by decide) rfl

end Envconfig
